import Mathlib

/-! landrun: the raw Landlock binding and the sandbox policy layer.

A shallow embedding of `internal/landlock/landlock.go` and
`internal/sandbox/sandbox.go`.

* Machine integers are `Nat`/`Int` with explicit reductions modulo `2^w`.
* The kernel is the environment.  Its answers (the errno of every call) are
  given by an arbitrary function of the current world and the call, and the
  world records the table of open file descriptors and the calls issued so
  far, in order, each with the errno it got.  The kernel reads a descriptor
  argument as 32 bits, and descriptor numbers are below `2^31`.
* The wrapper `unix.Open` rejects a path that holds a NUL byte with `EINVAL`
  before it calls the kernel.
* A Go `error` is an `Option`: `none` is `nil`.
-/

namespace landlock

/-! ## Access rights (landlock.go, lines 10-25) -/

/-- Constant `AccessExecute uint64 = 1 << iota`, iota = 0. -/
def AccessExecute : Nat := (1 <<< 0) % 2 ^ 64
/-- Constant with iota = 1. -/
def AccessWriteFile : Nat := (1 <<< 1) % 2 ^ 64
/-- Constant with iota = 2. -/
def AccessReadFile : Nat := (1 <<< 2) % 2 ^ 64
/-- Constant with iota = 3. -/
def AccessReadDir : Nat := (1 <<< 3) % 2 ^ 64
/-- Constant with iota = 4. -/
def AccessRemoveDir : Nat := (1 <<< 4) % 2 ^ 64
/-- Constant with iota = 5. -/
def AccessRemoveFile : Nat := (1 <<< 5) % 2 ^ 64
/-- Constant with iota = 6. -/
def AccessMakeChar : Nat := (1 <<< 6) % 2 ^ 64
/-- Constant with iota = 7. -/
def AccessMakeDir : Nat := (1 <<< 7) % 2 ^ 64
/-- Constant with iota = 8. -/
def AccessMakeReg : Nat := (1 <<< 8) % 2 ^ 64
/-- Constant with iota = 9. -/
def AccessMakeSock : Nat := (1 <<< 9) % 2 ^ 64
/-- Constant with iota = 10. -/
def AccessMakeFifo : Nat := (1 <<< 10) % 2 ^ 64
/-- Constant with iota = 11. -/
def AccessMakeBlock : Nat := (1 <<< 11) % 2 ^ 64
/-- Constant with iota = 12. -/
def AccessMakeSym : Nat := (1 <<< 12) % 2 ^ 64

/-- The thirteen constants in the order of the const block. -/
def accessRights : List Nat :=
  [AccessExecute, AccessWriteFile, AccessReadFile, AccessReadDir, AccessRemoveDir,
   AccessRemoveFile, AccessMakeChar, AccessMakeDir, AccessMakeReg, AccessMakeSock,
   AccessMakeFifo, AccessMakeBlock, AccessMakeSym]

/-! ## Rule types and ABI constants (landlock.go, lines 27-32) -/

/-- Constant `RuleTypePathBeneath uint64 = 1`. -/
def RuleTypePathBeneath : Nat := 1

/-- Constant `landlockABI uint64 = 0`. -/
def landlockABI : Nat := 0

/-! ## Integer conversions -/

/-- Go conversion `uint32(x)` of an `int`. -/
def uint32 (x : Int) : Nat := (x % 2 ^ 32).toNat

/-- Go conversion `uintptr(x)` of an `int` on a 64-bit target. -/
def uintptr (x : Int) : Nat := (x % 2 ^ 64).toNat

/-- Go conversion `int(x)` of a `uintptr` on a 64-bit target (two's complement). -/
def intOfUintptr (x : Nat) : Int :=
  if x % 2 ^ 64 < 2 ^ 63 then ((x % 2 ^ 64 : Nat) : Int) else ((x % 2 ^ 64 : Nat) : Int) - 2 ^ 64

/-! ## Records passed to the kernel -/

/-- Modelled from the spec: the declaration of `landlockRulesetAttr` is missing
from the source, which only builds it with the one field `HandledAccessFs`
(the spec's `handled_access_fs`). -/
structure landlockRulesetAttr where
  HandledAccessFs : Nat
  deriving DecidableEq

/-- The struct `landlockPathBeneathAttr` (landlock.go, lines 34-39): a `uint64`,
a `uint32` and the blank `[4]byte` field, kept here as its four bytes. -/
structure landlockPathBeneathAttr where
  AllowedAccess : Nat
  ParentFd : Nat
  pad : List Nat
  deriving DecidableEq

/-- The composite literal of `AddPathRule` (landlock.go, lines 68-71): the two
named fields are set, the blank field keeps its zero value. -/
def mkPathBeneathAttr (accessMask : Nat) (pathFd : Int) : landlockPathBeneathAttr :=
  { AllowedAccess := accessMask % 2 ^ 64, ParentFd := uint32 pathFd, pad := [0, 0, 0, 0] }

/-! ## Memory image of the path-beneath record -/

/-- Byte order of the target. -/
inductive ByteOrder
  | little
  | big
  deriving DecidableEq

/-- The `n` low bytes of `x`, least significant first. -/
def bytesLE : Nat → Nat → List Nat
  | 0, _ => []
  | n + 1, x => x % 256 :: bytesLE n (x / 256)

/-- The number whose bytes, least significant first, are the list. -/
def ofBytesLE : List Nat → Nat
  | [] => 0
  | b :: bs => b + 256 * ofBytesLE bs

/-- The `n` bytes of an unsigned integer field in the given byte order. -/
def fieldBytes (o : ByteOrder) (n x : Nat) : List Nat :=
  match o with
  | .little => bytesLE n x
  | .big => (bytesLE n x).reverse

/-- The unsigned integer held by the bytes of a field in the given byte order. -/
def fieldValue (o : ByteOrder) (bs : List Nat) : Nat :=
  match o with
  | .little => ofBytesLE bs
  | .big => ofBytesLE bs.reverse

/-- The memory image of the record: fields in declaration order at offsets
0, 8 and 12. -/
def landlockPathBeneathAttr.toBytes (o : ByteOrder) (a : landlockPathBeneathAttr) : List Nat :=
  fieldBytes o 8 a.AllowedAccess ++ fieldBytes o 4 a.ParentFd ++ a.pad

/-- Reads a record back from a memory image: the inverse layout that the spec's
round-trip property uses, not a function of the source. -/
def decodePathBeneathAttr (o : ByteOrder) (bs : List Nat) : landlockPathBeneathAttr :=
  { AllowedAccess := fieldValue o (bs.take 8),
    ParentFd := fieldValue o ((bs.drop 8).take 4),
    pad := (bs.drop 12).take 4 }

/-! ## The kernel as environment -/

/-- Linux value of `unix.O_PATH`. -/
def O_PATH : Nat := 0x200000
/-- Linux value of `unix.O_CLOEXEC`. -/
def O_CLOEXEC : Nat := 0x80000
/-- Linux value of `unix.PR_SET_NO_NEW_PRIVS`. -/
def PR_SET_NO_NEW_PRIVS : Nat := 38

/-- The kernel calls the package makes.  The open of a path is recorded with
the arguments `unix.Open` is called with, `close` with `uintptr(fd)`, the others
with the arguments of the raw call. -/
inductive Syscall
  | landlockCreateRuleset (attr : landlockRulesetAttr) (size flags : Nat)
  | openPath (path : String) (flags mode : Nat)
  | landlockAddRule (rulesetFd ruleType : Nat) (attr : landlockPathBeneathAttr) (flags : Nat)
  | close (fd : Nat)
  | prctl (option arg2 arg3 arg4 arg5 : Nat)
  | landlockRestrictSelf (rulesetFd flags : Nat)
  deriving DecidableEq

/-- Descriptor numbers are C `int`s: the table never holds a number from
`2^31` on. -/
def fdLimit : Nat := 2 ^ 31

/-- The state of the environment: a list of numbers whose entries below
`fdLimit` are the descriptors open in the process, and the calls issued so
far, oldest first, each with the errno it returned (0 is success). -/
structure World where
  fds : List Nat
  trace : List (Syscall × Nat)
  deriving DecidableEq

/-- The table of open descriptors: the entries of the list that are descriptor
numbers. -/
def World.openFds (w : World) : List Nat := w.fds.filter (fun n => decide (n < fdLimit))

/-- The answers of a kernel: the errno of a call issued in a world. -/
abbrev Kernel := World → Syscall → Nat

/-- The lowest descriptor number not in the table, which is the number a
successful call that creates a descriptor returns. -/
def lowestFree (fds : List Nat) : Nat :=
  ((List.range (fds.length + 1)).find? (fun n => decide (n ∉ fds))).getD 0

/-- The value a raw call returns in `r1` on failure: -1 as a `uintptr`. -/
def minusOne : Nat := 2 ^ 64 - 1

/-- Linux value of `EMFILE`. -/
def EMFILE : Nat := 24

/-- Linux value of `EINVAL`. -/
def EINVAL : Nat := 22

/-- The errno a call gets: the kernel's answer, except that a call which would
create a descriptor when none below the limit is free fails with `EMFILE`. -/
def Kernel.errno (K : Kernel) (w : World) (c : Syscall) : Nat :=
  match c with
  | .landlockCreateRuleset _ _ _ =>
    if K w c = 0 ∧ fdLimit ≤ lowestFree w.openFds then EMFILE else K w c
  | .openPath _ _ _ =>
    if K w c = 0 ∧ fdLimit ≤ lowestFree w.openFds then EMFILE else K w c
  | _ => K w c

/-- One call into the kernel: `(r1, errno)` and the world after it.  A
successful `open` or create-ruleset enters the lowest free descriptor in the
table; `close` reads its argument as 32 bits and removes that descriptor from
the table whatever errno it reports; the other calls leave the table alone. -/
def Kernel.call (K : Kernel) (w : World) (c : Syscall) : (Nat × Nat) × World :=
  let errno := K.errno w c
  let tr := w.trace ++ [(c, errno)]
  match c with
  | .landlockCreateRuleset _ _ _ =>
    if errno = 0 then
      ((lowestFree w.openFds, 0), { fds := lowestFree w.openFds :: w.fds, trace := tr })
    else ((minusOne, errno), { fds := w.fds, trace := tr })
  | .openPath _ _ _ =>
    if errno = 0 then
      ((lowestFree w.openFds, 0), { fds := lowestFree w.openFds :: w.fds, trace := tr })
    else ((minusOne, errno), { fds := w.fds, trace := tr })
  | .close fd =>
    ((if errno = 0 then 0 else minusOne, errno),
     { fds := w.fds.filter (fun n => decide (n ≠ fd % 2 ^ 32)), trace := tr })
  | _ => ((if errno = 0 then 0 else minusOne, errno), { fds := w.fds, trace := tr })

/-- A Go `error` value of this package: a bare errno, or `fmt.Errorf` wrapping
one with `%w` under a message. -/
inductive GoError
  | errno (e : Nat)
  | wrapped (msg : String) (cause : GoError)
  deriving DecidableEq

/-- Whether a Go string holds a NUL byte. -/
def hasNul (path : String) : Bool := path.data.contains (Char.ofNat 0)

/-- The wrapper `unix.Open`: `(fd, err)`, with `fd = -1` on failure.  The
conversion of the path to a C string fails with `EINVAL`, before any call into
the kernel, when the path holds a NUL byte. -/
def unixOpen (K : Kernel) (w : World) (path : String) (flags mode : Nat) :
    (Int × Option GoError) × World :=
  if hasNul path then ((-1, some (.errno EINVAL)), w)
  else
    let r := K.call w (.openPath path flags mode)
    if r.1.2 ≠ 0 then ((-1, some (.errno r.1.2)), r.2) else ((intOfUintptr r.1.1, none), r.2)

/-- The wrapper `unix.Close`, which passes `uintptr(fd)` to the kernel. -/
def unixClose (K : Kernel) (w : World) (fd : Int) : Option GoError × World :=
  let r := K.call w (.close (uintptr fd))
  (if r.1.2 ≠ 0 then some (.errno r.1.2) else none, r.2)

/-- The wrapper `unix.Prctl`. -/
def unixPrctl (K : Kernel) (w : World) (option arg2 arg3 arg4 arg5 : Nat) :
    Option GoError × World :=
  let r := K.call w (.prctl option arg2 arg3 arg4 arg5)
  (if r.1.2 ≠ 0 then some (.errno r.1.2) else none, r.2)

/-! ## The four operations (landlock.go, lines 41-109) -/

/-- Function `CreateRuleset`; the attribute size, `unsafe.Sizeof` of the struct whose
declaration is missing, is a parameter. -/
def CreateRuleset (LandlockRulesetAttrSize : Nat) (K : Kernel) (w : World) (accessMask : Nat) :
    (Int × Option GoError) × World :=
  let attr : landlockRulesetAttr := { HandledAccessFs := accessMask % 2 ^ 64 }
  let r := K.call w (.landlockCreateRuleset attr LandlockRulesetAttrSize landlockABI)
  if r.1.2 ≠ 0 then
    ((-1, some (.wrapped "CreateRuleset syscall failed" (.errno r.1.2))), r.2)
  else ((intOfUintptr r.1.1, none), r.2)

/-- Function `AddPathRule`.  The deferred `unix.Close(pathFd)` runs when the function
returns after a successful open, and its result is dropped. -/
def AddPathRule (K : Kernel) (w : World) (rulesetFd : Int) (path : String) (accessMask : Nat) :
    Option GoError × World :=
  let o := unixOpen K w path (O_PATH ||| O_CLOEXEC) 0
  let pathFd := o.1.1
  match o.1.2 with
  | some err => (some (.wrapped ("failed to open path " ++ path) err), o.2)
  | none =>
    let attr := mkPathBeneathAttr accessMask pathFd
    let r := K.call o.2 (.landlockAddRule (uintptr rulesetFd) RuleTypePathBeneath attr 0)
    let result : Option GoError :=
      if r.1.2 ≠ 0 then some (.wrapped "AddPathRule syscall failed" (.errno r.1.2)) else none
    let c := unixClose K r.2 pathFd
    (result, c.2)

/-- Function `RestrictSelf`. -/
def RestrictSelf (K : Kernel) (w : World) (rulesetFd : Int) : Option GoError × World :=
  let p := unixPrctl K w PR_SET_NO_NEW_PRIVS 1 0 0 0
  match p.1 with
  | some err => (some (.wrapped "prctl PR_SET_NO_NEW_PRIVS failed" err), p.2)
  | none =>
    let r := K.call p.2 (.landlockRestrictSelf (uintptr rulesetFd) 0)
    if r.1.2 ≠ 0 then (some (.wrapped "RestrictSelf syscall failed" (.errno r.1.2)), r.2)
    else (none, r.2)

/-- Function `CloseFd`. -/
def CloseFd (K : Kernel) (w : World) (fd : Int) : Option GoError × World :=
  unixClose K w fd

/-! ## Concrete kernels and worlds used to evaluate the operations -/

/-- A kernel on which every call succeeds. -/
def allOk : Kernel := fun _ _ => 0

/-- A kernel on which every `close` reports EIO and every other call succeeds. -/
def closeFails : Kernel := fun _ c =>
  match c with
  | .close _ => 5
  | _ => 0

/-- A kernel on which `prctl` reports EINVAL and every other call succeeds. -/
def prctlFails : Kernel := fun _ c =>
  match c with
  | .prctl _ _ _ _ _ => 22
  | _ => 0

/-- A kernel on which every `open` reports ENOENT and every other call succeeds. -/
def openFails : Kernel := fun _ c =>
  match c with
  | .openPath _ _ _ => 2
  | _ => 0

/-- A process with the three standard descriptors open and no call issued. -/
def w0 : World := { fds := [0, 1, 2], trace := [] }

/-- The world after `CreateRuleset` has succeeded in `w0`: the ruleset is
descriptor 3. -/
def w1 : World := (CreateRuleset 16 allOk w0 (AccessReadFile ||| AccessReadDir)).2

/-- The `open` call `AddPathRule` issues for a path. -/
def openCall (path : String) : Syscall := .openPath path (O_PATH ||| O_CLOEXEC) 0

/-- The add-rule call `AddPathRule` issues once the path is open on `pathFd`. -/
def addRuleCall (rulesetFd : Int) (accessMask : Nat) (pathFd : Nat) : Syscall :=
  .landlockAddRule (uintptr rulesetFd) RuleTypePathBeneath (mkPathBeneathAttr accessMask pathFd) 0

/-- The `prctl` call `RestrictSelf` issues. -/
def prctlCall : Syscall := .prctl PR_SET_NO_NEW_PRIVS 1 0 0 0

/-- The restrict-self call `RestrictSelf` issues. -/
def restrictSelfCall (rulesetFd : Int) : Syscall := .landlockRestrictSelf (uintptr rulesetFd) 0

/-- The create-ruleset call `CreateRuleset` issues. -/
def createRulesetCall (size accessMask : Nat) : Syscall :=
  .landlockCreateRuleset { HandledAccessFs := accessMask % 2 ^ 64 } size landlockABI

/-- The world after a call that created descriptor `fd`. -/
def World.opened (w : World) (c : Syscall) (fd : Nat) : World :=
  { fds := fd :: w.fds, trace := w.trace ++ [(c, 0)] }

/-- The world after a call that left the descriptor table alone. -/
def World.logged (w : World) (c : Syscall) (errno : Nat) : World :=
  { fds := w.fds, trace := w.trace ++ [(c, errno)] }

/-- The calls issued between world `w` and a later world `w2`. -/
def newCalls (w w2 : World) : List (Syscall × Nat) := w2.trace.drop w.trace.length

/-- The errno of the add-rule call `AddPathRule` issues in `w` once its open
has succeeded. -/
def addRuleErrno (K : Kernel) (w : World) (rulesetFd : Int) (path : String)
    (accessMask : Nat) : Nat :=
  K.errno (w.opened (openCall path) (lowestFree w.openFds))
    (addRuleCall rulesetFd accessMask (lowestFree w.openFds))

/-- The errno of the deferred close `AddPathRule` issues in `w` after its
add-rule call. -/
def closeErrno (K : Kernel) (w : World) (rulesetFd : Int) (path : String)
    (accessMask : Nat) : Nat :=
  K.errno ((w.opened (openCall path) (lowestFree w.openFds)).logged
      (addRuleCall rulesetFd accessMask (lowestFree w.openFds))
      (addRuleErrno K w rulesetFd path accessMask))
    (.close (lowestFree w.openFds))

/-- The errno of the restrict-self call `RestrictSelf` issues in `w` once its
`prctl` has succeeded. -/
def restrictSelfErrno (K : Kernel) (w : World) (rulesetFd : Int) : Nat :=
  K.errno (w.logged prctlCall 0) (restrictSelfCall rulesetFd)

/-- Whether a call is a `close`. -/
def Syscall.isClose : Syscall → Bool
  | .close _ => true
  | _ => false

end landlock

namespace sandbox

/-! ## The policy layer (sandbox.go) -/

/-- The struct `Config` (sandbox.go, lines 11-19). -/
structure Config where
  ReadOnlyPaths : List String
  ReadWritePaths : List String
  ReadOnlyExecutablePaths : List String
  ReadWriteExecutablePaths : List String
  BindTCPPorts : List Int
  ConnectTCPPorts : List Int
  BestEffort : Bool
  deriving DecidableEq

/-- The thirteen filesystem access-right constants of the go-landlock `syscall`
package, which is not part of this repository: parameters of the model. -/
structure AccessFS where
  AccessFSExecute : Nat
  AccessFSWriteFile : Nat
  AccessFSReadFile : Nat
  AccessFSReadDir : Nat
  AccessFSRemoveDir : Nat
  AccessFSRemoveFile : Nat
  AccessFSMakeChar : Nat
  AccessFSMakeDir : Nat
  AccessFSMakeReg : Nat
  AccessFSMakeSock : Nat
  AccessFSMakeFifo : Nat
  AccessFSMakeBlock : Nat
  AccessFSMakeSym : Nat
  deriving DecidableEq

/-- The thirteen constants as a list. -/
def AccessFS.all (c : AccessFS) : List Nat :=
  [c.AccessFSExecute, c.AccessFSWriteFile, c.AccessFSReadFile, c.AccessFSReadDir,
   c.AccessFSRemoveDir, c.AccessFSRemoveFile, c.AccessFSMakeChar, c.AccessFSMakeDir,
   c.AccessFSMakeReg, c.AccessFSMakeSock, c.AccessFSMakeFifo, c.AccessFSMakeBlock,
   c.AccessFSMakeSym]

/-- The constants are pairwise distinct single bits of a 64-bit mask. -/
def AccessFS.SingleBits (c : AccessFS) : Prop :=
  (∀ r ∈ c.all, ∃ k, k < 64 ∧ r = 2 ^ k) ∧ c.all.Nodup

/-- The values the constants have in the kernel ABI. -/
def kernelAccessFS : AccessFS :=
  { AccessFSExecute := 1, AccessFSWriteFile := 2, AccessFSReadFile := 4, AccessFSReadDir := 8,
    AccessFSRemoveDir := 16, AccessFSRemoveFile := 32, AccessFSMakeChar := 64,
    AccessFSMakeDir := 128, AccessFSMakeReg := 256, AccessFSMakeSock := 512,
    AccessFSMakeFifo := 1024, AccessFSMakeBlock := 2048, AccessFSMakeSym := 4096 }

/-- Function `getReadWriteExecutableRights` (sandbox.go, lines 21-38). -/
def getReadWriteExecutableRights (c : AccessFS) : Nat :=
  let accessRights := 0
  let accessRights := accessRights ||| c.AccessFSExecute
  let accessRights := accessRights ||| c.AccessFSReadFile
  let accessRights := accessRights ||| c.AccessFSReadDir
  let accessRights := accessRights ||| c.AccessFSWriteFile
  let accessRights := accessRights ||| c.AccessFSRemoveDir
  let accessRights := accessRights ||| c.AccessFSRemoveFile
  let accessRights := accessRights ||| c.AccessFSMakeChar
  let accessRights := accessRights ||| c.AccessFSMakeDir
  let accessRights := accessRights ||| c.AccessFSMakeReg
  let accessRights := accessRights ||| c.AccessFSMakeSock
  let accessRights := accessRights ||| c.AccessFSMakeFifo
  let accessRights := accessRights ||| c.AccessFSMakeBlock
  let accessRights := accessRights ||| c.AccessFSMakeSym
  accessRights

/-- Function `getReadOnlyExecutableRights` (sandbox.go, lines 40-46). -/
def getReadOnlyExecutableRights (c : AccessFS) : Nat :=
  let accessRights := 0
  let accessRights := accessRights ||| c.AccessFSExecute
  let accessRights := accessRights ||| c.AccessFSReadFile
  let accessRights := accessRights ||| c.AccessFSReadDir
  accessRights

/-- Function `getReadOnlyRights` (sandbox.go, lines 48-54). -/
def getReadOnlyRights (c : AccessFS) : Nat :=
  let accessRights := 0
  let accessRights := accessRights ||| c.AccessFSReadFile
  let accessRights := accessRights ||| c.AccessFSReadDir
  accessRights

/-- Function `getReadWriteRights` (sandbox.go, lines 56-72). -/
def getReadWriteRights (c : AccessFS) : Nat :=
  let accessRights := 0
  let accessRights := accessRights ||| c.AccessFSReadFile
  let accessRights := accessRights ||| c.AccessFSReadDir
  let accessRights := accessRights ||| c.AccessFSWriteFile
  let accessRights := accessRights ||| c.AccessFSRemoveDir
  let accessRights := accessRights ||| c.AccessFSRemoveFile
  let accessRights := accessRights ||| c.AccessFSMakeChar
  let accessRights := accessRights ||| c.AccessFSMakeDir
  let accessRights := accessRights ||| c.AccessFSMakeReg
  let accessRights := accessRights ||| c.AccessFSMakeSock
  let accessRights := accessRights ||| c.AccessFSMakeFifo
  let accessRights := accessRights ||| c.AccessFSMakeBlock
  let accessRights := accessRights ||| c.AccessFSMakeSym
  accessRights

/-- The part of the go-landlock library `Apply` uses, which is not part of this
repository: the configuration `V5`, its method `BestEffort`, the three rule
constructors, and the outcome of `Restrict` on a configuration and a rule
list (`none` is `nil`).  Parameters of the model. -/
structure Landlock (Cfg Rule Err : Type) where
  V5 : Cfg
  BestEffort : Cfg → Cfg
  PathAccess : Nat → String → Rule
  BindTCP : Nat → Rule
  ConnectTCP : Nat → Rule
  Restrict : Cfg → List Rule → Option Err

/-- Go conversion `uint16(x)` of an `int`. -/
def uint16 (x : Int) : Nat := (x % 2 ^ 16).toNat

/-- What a run of `Apply` did and returned: the calls of `Restrict` it made, in
order, and its `error`, which wraps the one `Restrict` returned under the
message of the branch. -/
structure ApplyResult (Cfg Rule Err : Type) where
  restrictCalls : List (Cfg × List Rule)
  err : Option (String × Err)

/-- Function `Apply` (sandbox.go, lines 74-141); the log calls have no effect on the
result and are left out. -/
def Apply {Cfg Rule Err : Type} (c : AccessFS) (lib : Landlock Cfg Rule Err) (cfg : Config) :
    ApplyResult Cfg Rule Err :=
  let llCfg := lib.V5
  let llCfg := if cfg.BestEffort then lib.BestEffort llCfg else llCfg
  let rules : List Rule := []
  let rules := cfg.ReadOnlyExecutablePaths.foldl
    (fun rules path => rules ++ [lib.PathAccess (getReadOnlyExecutableRights c) path]) rules
  let rules := cfg.ReadWriteExecutablePaths.foldl
    (fun rules path => rules ++ [lib.PathAccess (getReadWriteExecutableRights c) path]) rules
  let rules := cfg.ReadOnlyPaths.foldl
    (fun rules path => rules ++ [lib.PathAccess (getReadOnlyRights c) path]) rules
  let rules := cfg.ReadWritePaths.foldl
    (fun rules path => rules ++ [lib.PathAccess (getReadWriteRights c) path]) rules
  let rules := cfg.BindTCPPorts.foldl
    (fun rules port => rules ++ [lib.BindTCP (uint16 port)]) rules
  let rules := cfg.ConnectTCPPorts.foldl
    (fun rules port => rules ++ [lib.ConnectTCP (uint16 port)]) rules
  if rules.length = 0 then
    match lib.Restrict llCfg [] with
    | some err =>
      { restrictCalls := [(llCfg, [])],
        err := some ("failed to apply default Landlock restrictions", err) }
    | none => { restrictCalls := [(llCfg, [])], err := none }
  else
    match lib.Restrict llCfg rules with
    | some err =>
      { restrictCalls := [(llCfg, rules)],
        err := some ("failed to apply Landlock restrictions", err) }
    | none => { restrictCalls := [(llCfg, rules)], err := none }

/-- The rule list the claims describe: the six sublists in the order of the
loops, each in input order. -/
def expectedRules {Cfg Rule Err : Type} (c : AccessFS) (lib : Landlock Cfg Rule Err)
    (cfg : Config) : List Rule :=
  cfg.ReadOnlyExecutablePaths.map (lib.PathAccess (getReadOnlyExecutableRights c)) ++
  cfg.ReadWriteExecutablePaths.map (lib.PathAccess (getReadWriteExecutableRights c)) ++
  cfg.ReadOnlyPaths.map (lib.PathAccess (getReadOnlyRights c)) ++
  cfg.ReadWritePaths.map (lib.PathAccess (getReadWriteRights c)) ++
  cfg.BindTCPPorts.map (fun port => lib.BindTCP (port % 2 ^ 16).toNat) ++
  cfg.ConnectTCPPorts.map (fun port => lib.ConnectTCP (port % 2 ^ 16).toNat)

/-- The configuration the claims describe: `V5`, made best-effort exactly when
the flag is set. -/
def expectedCfg {Cfg Rule Err : Type} (lib : Landlock Cfg Rule Err) (cfg : Config) : Cfg :=
  if cfg.BestEffort then lib.BestEffort lib.V5 else lib.V5

/-- A rule as a plain value, for evaluating `Apply`. -/
inductive PlainRule
  | path (rights : Nat) (path : String)
  | bind (port : Nat)
  | connect (port : Nat)
  deriving DecidableEq

/-- A library whose rules are plain values and whose `Restrict` succeeds. -/
def plainLib : Landlock (Nat × Bool) PlainRule Nat :=
  { V5 := (5, false), BestEffort := fun v => (v.1, true),
    PathAccess := .path, BindTCP := .bind, ConnectTCP := .connect,
    Restrict := fun _ _ => none }

end sandbox

/-! # Theorems -/

namespace landlock

/-- The lowest free descriptor is not in the table. -/
theorem lowestFree_not_mem (fds : List Nat) : lowestFree fds ∉ fds := by
  unfold lowestFree
  cases h : (List.range (fds.length + 1)).find? (fun n => decide (n ∉ fds)) with
  | some a =>
    have := List.find?_some h
    simpa using this
  | none =>
    exfalso
    rw [List.find?_eq_none] at h
    have hsub : List.range (fds.length + 1) ⊆ fds := by
      intro x hx
      have := h x hx
      simpa using this
    have hle := ((List.nodup_range (fds.length + 1)).subperm hsub).length_le
    simp at hle

/-- The table holds the entries of the list that are below the limit. -/
theorem mem_openFds (w : World) (n : Nat) : n ∈ w.openFds ↔ n ∈ w.fds ∧ n < fdLimit := by
  simp [World.openFds, List.mem_filter]

/-- A free descriptor number below the limit is not in the list at all. -/
theorem fresh_not_mem_fds (w : World) (h : lowestFree w.openFds < fdLimit) :
    lowestFree w.openFds ∉ w.fds :=
  fun hm => lowestFree_not_mem w.openFds ((mem_openFds w _).mpr ⟨hm, h⟩)

/-- Removing a number that was just put in front of a list it is not in gives
the list back. -/
theorem filter_cons_fresh (fds : List Nat) (fd : Nat) (h : fd ∉ fds) :
    (fd :: fds).filter (fun (n : Nat) => decide (n ≠ fd)) = fds := by
  rw [List.filter_cons]
  simp only [ne_eq, not_true_eq_false, decide_False, Bool.false_eq_true, if_false]
  rw [List.filter_eq_self]
  intro a ha
  have : a ≠ fd := fun e => h (e ▸ ha)
  simpa using this

/-- A descriptor number below the limit survives the conversion to `int`. -/
theorem intOfUintptr_small (n : Nat) (h : n < fdLimit) : intOfUintptr n = (n : Int) := by
  unfold fdLimit at h
  unfold intOfUintptr
  have h1 : n % 2 ^ 64 = n := Nat.mod_eq_of_lt (by omega)
  rw [h1]
  have h2 : n < 2 ^ 63 := by omega
  rw [if_pos h2]

/-- A descriptor number below the limit survives the conversion to `uintptr`. -/
theorem uintptr_small (n : Nat) (h : n < fdLimit) : uintptr (n : Int) = n := by
  unfold fdLimit at h
  unfold uintptr
  have h1 : (n : Int) % 2 ^ 64 = (n : Int) := Int.emod_eq_of_lt (by omega) (by omega)
  rw [h1]
  exact Int.toNat_natCast n

/-- A descriptor number below the limit is what the kernel reads in 32 bits. -/
theorem mod_small (n : Nat) (h : n < fdLimit) : n % 2 ^ 32 = n := by
  unfold fdLimit at h
  exact Nat.mod_eq_of_lt (by omega)

/-- A successful `open` found a descriptor below the limit. -/
theorem lowestFree_lt_of_open_ok (K : Kernel) (w : World) (path : String)
    (h : K.errno w (openCall path) = 0) : lowestFree w.openFds < fdLimit := by
  by_contra hge
  have hge2 : fdLimit ≤ lowestFree w.openFds := Nat.le_of_not_lt hge
  by_cases hk : K w (openCall path) = 0
  · simp only [Kernel.errno, openCall] at h hk
    rw [if_pos ⟨hk, hge2⟩] at h
    exact absurd h (by decide)
  · simp only [Kernel.errno, openCall] at h hk
    rw [if_neg (fun hc => hk hc.1)] at h
    exact hk h

/-- A successful create-ruleset found a descriptor below the limit. -/
theorem lowestFree_lt_of_create_ok (K : Kernel) (w : World) (size accessMask : Nat)
    (h : K.errno w (createRulesetCall size accessMask) = 0) :
    lowestFree w.openFds < fdLimit := by
  by_contra hge
  have hge2 : fdLimit ≤ lowestFree w.openFds := Nat.le_of_not_lt hge
  by_cases hk : K w (createRulesetCall size accessMask) = 0
  · simp only [Kernel.errno, createRulesetCall] at h hk
    rw [if_pos ⟨hk, hge2⟩] at h
    exact absurd h (by decide)
  · simp only [Kernel.errno, createRulesetCall] at h hk
    rw [if_neg (fun hc => hk hc.1)] at h
    exact hk h

/-- Result of `AddPathRule` on a path that holds a NUL byte: the error of the
wrapper, no call, the world untouched. -/
theorem AddPathRule_nul (K : Kernel) (w : World) (rulesetFd : Int) (path : String)
    (accessMask : Nat) (hnul : hasNul path = true) :
    AddPathRule K w rulesetFd path accessMask =
      (some (.wrapped ("failed to open path " ++ path) (.errno EINVAL)), w) := by
  simp only [AddPathRule, unixOpen, hnul, if_true]

/-- Result of `AddPathRule` when the open fails: one call, the error, the table untouched. -/
theorem AddPathRule_open_failed (K : Kernel) (w : World) (rulesetFd : Int) (path : String)
    (accessMask : Nat) (hnul : hasNul path = false) (h : K.errno w (openCall path) ≠ 0) :
    AddPathRule K w rulesetFd path accessMask =
      (some (.wrapped ("failed to open path " ++ path) (.errno (K.errno w (openCall path)))),
       w.logged (openCall path) (K.errno w (openCall path))) := by
  unfold openCall at h
  simp [AddPathRule, unixOpen, Kernel.call, openCall, World.logged, h, hnul]

/-- Result of `AddPathRule` when the open succeeds: open, add-rule, close of the path
descriptor, and the table as before. -/
theorem AddPathRule_open_ok (K : Kernel) (w : World) (rulesetFd : Int) (path : String)
    (accessMask : Nat) (hnul : hasNul path = false) (h : K.errno w (openCall path) = 0) :
    AddPathRule K w rulesetFd path accessMask =
      (if addRuleErrno K w rulesetFd path accessMask ≠ 0
        then some (.wrapped "AddPathRule syscall failed"
          (.errno (addRuleErrno K w rulesetFd path accessMask)))
        else none,
       { fds := w.fds,
         trace := w.trace ++
           [(openCall path, 0),
            (addRuleCall rulesetFd accessMask (lowestFree w.openFds),
              addRuleErrno K w rulesetFd path accessMask),
            (.close (lowestFree w.openFds), closeErrno K w rulesetFd path accessMask)] }) := by
  have hlt := lowestFree_lt_of_open_ok K w path h
  have hconv := intOfUintptr_small _ hlt
  have hu := uintptr_small _ hlt
  have hm := mod_small _ hlt
  have hfresh := filter_cons_fresh w.fds _ (fresh_not_mem_fds w hlt)
  unfold openCall at h
  simp only [AddPathRule, unixOpen, unixClose, Kernel.call, openCall, addRuleCall, World.opened,
    World.logged, addRuleErrno, closeErrno, h, hnul, hconv, hu, hm, hfresh, ne_eq,
    not_true_eq_false, if_false, if_true, Bool.false_eq_true,
    List.append_assoc, List.singleton_append, List.cons_append, List.nil_append]

/-- Result of `RestrictSelf` when `prctl` fails: one call and the error. -/
theorem RestrictSelf_prctl_failed (K : Kernel) (w : World) (rulesetFd : Int)
    (h : K.errno w prctlCall ≠ 0) :
    RestrictSelf K w rulesetFd =
      (some (.wrapped "prctl PR_SET_NO_NEW_PRIVS failed" (.errno (K.errno w prctlCall))),
       w.logged prctlCall (K.errno w prctlCall)) := by
  unfold prctlCall at h
  simp [RestrictSelf, unixPrctl, Kernel.call, prctlCall, World.logged, h]

/-- Result of `RestrictSelf` when `prctl` succeeds: `prctl`, then restrict-self, whose
errno decides the result. -/
theorem RestrictSelf_prctl_ok (K : Kernel) (w : World) (rulesetFd : Int)
    (h : K.errno w prctlCall = 0) :
    RestrictSelf K w rulesetFd =
      (if K.errno (w.logged prctlCall 0) (restrictSelfCall rulesetFd) ≠ 0
        then some (.wrapped "RestrictSelf syscall failed"
          (.errno (K.errno (w.logged prctlCall 0) (restrictSelfCall rulesetFd))))
        else none,
       { fds := w.fds,
         trace := w.trace ++
           [(prctlCall, 0),
            (restrictSelfCall rulesetFd,
              K.errno (w.logged prctlCall 0) (restrictSelfCall rulesetFd))] }) := by
  unfold prctlCall at h
  by_cases h2 : K.errno (w.logged prctlCall 0) (restrictSelfCall rulesetFd) = 0
  · unfold prctlCall restrictSelfCall World.logged at h2
    simp [RestrictSelf, unixPrctl, Kernel.call, prctlCall, restrictSelfCall, World.logged, h, h2]
  · unfold prctlCall restrictSelfCall World.logged at h2
    simp [RestrictSelf, unixPrctl, Kernel.call, prctlCall, restrictSelfCall, World.logged, h, h2]

/-- Result of `CreateRuleset` when the call fails. -/
theorem CreateRuleset_failed (size : Nat) (K : Kernel) (w : World) (accessMask : Nat)
    (h : K.errno w (createRulesetCall size accessMask) ≠ 0) :
    CreateRuleset size K w accessMask =
      ((-1, some (.wrapped "CreateRuleset syscall failed"
          (.errno (K.errno w (createRulesetCall size accessMask))))),
       w.logged (createRulesetCall size accessMask)
         (K.errno w (createRulesetCall size accessMask))) := by
  unfold createRulesetCall at h
  simp only [CreateRuleset, Kernel.call, createRulesetCall, World.logged, h, ne_eq,
    not_false_eq_true, if_true, if_false]

/-- Result of `CreateRuleset` when the call succeeds: the new descriptor is returned and
is in the table. -/
theorem CreateRuleset_ok (size : Nat) (K : Kernel) (w : World) (accessMask : Nat)
    (h : K.errno w (createRulesetCall size accessMask) = 0) :
    CreateRuleset size K w accessMask =
      ((Int.ofNat (lowestFree w.openFds), none),
       w.opened (createRulesetCall size accessMask) (lowestFree w.openFds)) := by
  have hconv := intOfUintptr_small _ (lowestFree_lt_of_create_ok K w size accessMask h)
  unfold createRulesetCall at h
  simp only [CreateRuleset, Kernel.call, createRulesetCall, World.opened, h, hconv, ne_eq,
    not_true_eq_false, if_true, if_false, Int.ofNat_eq_coe]

/-- Result of `CloseFd`: one `close`, whose errno is the result, and the descriptor
the kernel reads leaves the table. -/
theorem CloseFd_eq (K : Kernel) (w : World) (fd : Int) :
    CloseFd K w fd =
      (if K.errno w (.close (uintptr fd)) ≠ 0
        then some (.errno (K.errno w (.close (uintptr fd)))) else none,
       { fds := w.fds.filter (fun n => decide (n ≠ uintptr fd % 2 ^ 32)),
         trace := w.trace ++ [(.close (uintptr fd), K.errno w (.close (uintptr fd)))] }) := by
  simp only [CloseFd, unixClose, Kernel.call]

/-- The calls issued since a world that only grew by `cs`. -/
theorem newCalls_append (w : World) (fds : List Nat) (cs : List (Syscall × Nat)) :
    newCalls w { fds := fds, trace := w.trace ++ cs } = cs := by
  simp [newCalls]

/-- No call issued since the world itself. -/
theorem newCalls_self (w : World) : newCalls w w = [] := by
  simp [newCalls]

/-- The function `AddPathRule` leaves the descriptor table as it found it. -/
theorem AddPathRule_table (K : Kernel) (w : World) (rulesetFd : Int) (path : String)
    (accessMask : Nat) : (AddPathRule K w rulesetFd path accessMask).2.openFds = w.openFds := by
  cases hnul : hasNul path with
  | true => rw [AddPathRule_nul K w rulesetFd path accessMask hnul]
  | false =>
    by_cases h : K.errno w (openCall path) = 0
    · rw [AddPathRule_open_ok K w rulesetFd path accessMask hnul h]
      rfl
    · rw [AddPathRule_open_failed K w rulesetFd path accessMask hnul h]
      rfl

/-- C1: in a world with an explicit table of open descriptors, `AddPathRule`
leaves the table as it found it.  When its open fails, in the wrapper on a path
with a NUL byte without any call or in the kernel with that one call, it closes
nothing; when its open succeeds, on a descriptor that was not open before, it
issues open, add-rule and then exactly one close, of that descriptor, whether
add-rule succeeds or fails. -/
theorem AddPathRule_releases_path_fd (K : Kernel) (w : World) (rulesetFd : Int)
    (path : String) (accessMask : Nat) :
    (AddPathRule K w rulesetFd path accessMask).2.openFds = w.openFds ∧
    ((hasNul path = true ∧ (AddPathRule K w rulesetFd path accessMask).2.trace = w.trace) ∨
     (hasNul path = false ∧ K.errno w (openCall path) ≠ 0 ∧
        (AddPathRule K w rulesetFd path accessMask).2.trace =
          w.trace ++ [(openCall path, K.errno w (openCall path))]) ∨
     (hasNul path = false ∧ K.errno w (openCall path) = 0 ∧
        lowestFree w.openFds ∉ w.openFds ∧ ∃ e3,
        (AddPathRule K w rulesetFd path accessMask).2.trace =
          w.trace ++
            [(openCall path, 0),
             (addRuleCall rulesetFd accessMask (lowestFree w.openFds),
               K.errno (w.opened (openCall path) (lowestFree w.openFds))
                 (addRuleCall rulesetFd accessMask (lowestFree w.openFds))),
             (.close (lowestFree w.openFds), e3)])) := by
  refine ⟨AddPathRule_table K w rulesetFd path accessMask, ?_⟩
  cases hnul : hasNul path with
  | true =>
    rw [AddPathRule_nul K w rulesetFd path accessMask hnul]
    exact Or.inl ⟨rfl, rfl⟩
  | false =>
    by_cases h : K.errno w (openCall path) = 0
    · rw [AddPathRule_open_ok K w rulesetFd path accessMask hnul h]
      exact Or.inr (Or.inr ⟨rfl, h, lowestFree_not_mem _, _, rfl⟩)
    · rw [AddPathRule_open_failed K w rulesetFd path accessMask hnul h]
      exact Or.inr (Or.inl ⟨rfl, h, rfl⟩)

/-- C2: `RestrictSelf` issues the no-new-privileges `prctl` first.  If it
fails, the result is an error and nothing else is issued; if it succeeds,
restrict-self is issued next and nothing more.  The result is nil exactly
when both calls succeed. -/
theorem RestrictSelf_prctl_then_restrict (K : Kernel) (w : World) (rulesetFd : Int) :
    ((K.errno w prctlCall ≠ 0 ∧ (RestrictSelf K w rulesetFd).1 ≠ none ∧
        (RestrictSelf K w rulesetFd).2.trace = w.trace ++ [(prctlCall, K.errno w prctlCall)]) ∨
     (K.errno w prctlCall = 0 ∧
        (RestrictSelf K w rulesetFd).2.trace =
          w.trace ++
            [(prctlCall, 0),
             (restrictSelfCall rulesetFd,
               K.errno (w.logged prctlCall 0) (restrictSelfCall rulesetFd))])) ∧
    ((RestrictSelf K w rulesetFd).1 = none ↔
      K.errno w prctlCall = 0 ∧
        K.errno (w.logged prctlCall 0) (restrictSelfCall rulesetFd) = 0) := by
  by_cases h : K.errno w prctlCall = 0
  · rw [RestrictSelf_prctl_ok K w rulesetFd h]
    refine ⟨Or.inr ⟨h, rfl⟩, ?_⟩
    by_cases h2 : K.errno (w.logged prctlCall 0) (restrictSelfCall rulesetFd) = 0
    · simp [h, h2]
    · simp [h, h2]
  · rw [RestrictSelf_prctl_failed K w rulesetFd h]
    refine ⟨Or.inl ⟨h, by simp, rfl⟩, ?_⟩
    simp [h]

/-- C3, as stated, fails: on a kernel whose `close` reports EIO while open and
add-rule succeed, `AddPathRule` returns nil although one of its kernel calls
failed. -/
theorem AddPathRule_drops_close_failure :
    (AddPathRule closeFails w1 3 "/usr" AccessReadFile).1 = none ∧
    (Syscall.close 4, 5) ∈ newCalls w1 (AddPathRule closeFails w1 3 "/usr" AccessReadFile).2 := by
  decide

/-- C3, amended: for each of the four operations, the calls it issues are
appended to the trace, and if one of them failed, other than the deferred close
of the path descriptor in `AddPathRule`, the operation returns a non-nil
error. -/
theorem failures_surface_except_deferred_close (K : Kernel) (w : World) :
    (∀ size accessMask,
      (CreateRuleset size K w accessMask).2.trace =
        w.trace ++ newCalls w (CreateRuleset size K w accessMask).2 ∧
      ((∃ ev ∈ newCalls w (CreateRuleset size K w accessMask).2, ev.2 ≠ 0) →
        (CreateRuleset size K w accessMask).1.2 ≠ none)) ∧
    (∀ rulesetFd path accessMask,
      (AddPathRule K w rulesetFd path accessMask).2.trace =
        w.trace ++ newCalls w (AddPathRule K w rulesetFd path accessMask).2 ∧
      ((∃ ev ∈ newCalls w (AddPathRule K w rulesetFd path accessMask).2,
          ev.1.isClose = false ∧ ev.2 ≠ 0) →
        (AddPathRule K w rulesetFd path accessMask).1 ≠ none)) ∧
    (∀ rulesetFd,
      (RestrictSelf K w rulesetFd).2.trace = w.trace ++ newCalls w (RestrictSelf K w rulesetFd).2 ∧
      ((∃ ev ∈ newCalls w (RestrictSelf K w rulesetFd).2, ev.2 ≠ 0) →
        (RestrictSelf K w rulesetFd).1 ≠ none)) ∧
    (∀ fd,
      (CloseFd K w fd).2.trace = w.trace ++ newCalls w (CloseFd K w fd).2 ∧
      ((∃ ev ∈ newCalls w (CloseFd K w fd).2, ev.2 ≠ 0) → (CloseFd K w fd).1 ≠ none)) := by
  refine ⟨?_, ?_, ?_, ?_⟩
  · intro size accessMask
    by_cases h : K.errno w (createRulesetCall size accessMask) = 0
    · rw [CreateRuleset_ok size K w accessMask h]
      simp [World.opened, newCalls_append]
    · rw [CreateRuleset_failed size K w accessMask h]
      simp [World.logged, newCalls_append]
  · intro rulesetFd path accessMask
    cases hnul : hasNul path with
    | true =>
      rw [AddPathRule_nul K w rulesetFd path accessMask hnul]
      simp [newCalls_self]
    | false =>
      by_cases h : K.errno w (openCall path) = 0
      · rw [AddPathRule_open_ok K w rulesetFd path accessMask hnul h]
        by_cases h2 : addRuleErrno K w rulesetFd path accessMask = 0
        · simp [newCalls_append, h2, Syscall.isClose, openCall, addRuleCall]
        · simp [newCalls_append, h2]
      · rw [AddPathRule_open_failed K w rulesetFd path accessMask hnul h]
        simp [World.logged, newCalls_append]
  · intro rulesetFd
    by_cases h : K.errno w prctlCall = 0
    · rw [RestrictSelf_prctl_ok K w rulesetFd h]
      by_cases h2 : K.errno (w.logged prctlCall 0) (restrictSelfCall rulesetFd) = 0
      · simp [newCalls_append, h2]
      · simp [newCalls_append, h2]
    · rw [RestrictSelf_prctl_failed K w rulesetFd h]
      simp [World.logged, newCalls_append]
  · intro fd
    rw [CloseFd_eq]
    by_cases h : K.errno w (.close (uintptr fd)) = 0
    · simp [newCalls_append, h]
    · simp [newCalls_append, h]

/-- C4, as stated, fails: the ruleset descriptor 3 obtained from `CreateRuleset`
is still open after `RestrictSelf` has returned nil on it, after `RestrictSelf`
has returned an error on it, and after `AddPathRule` has returned an error on
it. -/
theorem ruleset_fd_left_open :
    (CreateRuleset 16 allOk w0 (AccessReadFile ||| AccessReadDir)).1 = (3, none) ∧
    (RestrictSelf allOk w1 3).1 = none ∧ 3 ∈ (RestrictSelf allOk w1 3).2.openFds ∧
    (RestrictSelf prctlFails w1 3).1 ≠ none ∧ 3 ∈ (RestrictSelf prctlFails w1 3).2.openFds ∧
    (AddPathRule openFails w1 3 "/nonexistent" AccessReadFile).1 ≠ none ∧
    3 ∈ (AddPathRule openFails w1 3 "/nonexistent" AccessReadFile).2.openFds := by
  decide

/-- C4, amended: neither `AddPathRule` nor `RestrictSelf` closes the ruleset
descriptor.  A descriptor that is open, as the one a successful
`CreateRuleset` returns is, is still open after either of them returns,
with or without an error; it leaves the table when it is passed to
`CloseFd`. -/
theorem ruleset_fd_open_until_CloseFd (K : Kernel) (w : World) (fd : Nat)
    (h : fd ∈ w.openFds) :
    (∀ path accessMask, fd ∈ (AddPathRule K w fd path accessMask).2.openFds) ∧
    fd ∈ (RestrictSelf K w fd).2.openFds ∧
    fd ∉ (CloseFd K w fd).2.openFds ∧
    (∀ (K0 : Kernel) (v : World) (size accessMask : Nat),
      (CreateRuleset size K0 v accessMask).1.2 = none →
        ∃ n : Nat, (CreateRuleset size K0 v accessMask).1.1 = (n : Int) ∧
          n ∈ (CreateRuleset size K0 v accessMask).2.openFds) := by
  refine ⟨?_, ?_, ?_, ?_⟩
  · intro path accessMask
    rw [AddPathRule_table K w fd path accessMask]
    exact h
  · by_cases hp : K.errno w prctlCall = 0
    · rw [RestrictSelf_prctl_ok K w fd hp]
      exact h
    · rw [RestrictSelf_prctl_failed K w fd hp]
      exact h
  · have hlt := ((mem_openFds w fd).mp h).2
    rw [CloseFd_eq, mem_openFds, uintptr_small fd hlt, mod_small fd hlt]
    simp
  · intro K0 v size accessMask hnil
    by_cases hc : K0.errno v (createRulesetCall size accessMask) = 0
    · rw [CreateRuleset_ok size K0 v accessMask hc]
      refine ⟨lowestFree v.openFds, rfl, ?_⟩
      rw [mem_openFds]
      exact ⟨List.mem_cons_self _ _, lowestFree_lt_of_create_ok K0 v size accessMask hc⟩
    · rw [CreateRuleset_failed size K0 v accessMask hc] at hnil
      simp at hnil

/-- Witness of `ruleset_fd_open_until_CloseFd`: descriptor 3 in the world after
a successful `CreateRuleset`. -/
theorem ruleset_fd_open_until_CloseFd_witness :
    (3 ∈ w1.openFds) ∧
    ((∀ path accessMask, 3 ∈ (AddPathRule allOk w1 (3 : Nat) path accessMask).2.openFds) ∧
    3 ∈ (RestrictSelf allOk w1 (3 : Nat)).2.openFds ∧
    3 ∉ (CloseFd allOk w1 (3 : Nat)).2.openFds ∧
    (∀ (K0 : Kernel) (v : World) (size accessMask : Nat),
      (CreateRuleset size K0 v accessMask).1.2 = none →
        ∃ n : Nat, (CreateRuleset size K0 v accessMask).1.1 = (n : Int) ∧
          n ∈ (CreateRuleset size K0 v accessMask).2.openFds)) :=
  ⟨by decide, ruleset_fd_open_until_CloseFd allOk w1 3 (by decide)⟩

/-- C5, as stated, fails: a second `RestrictSelf` on the same ruleset, after the
first has enforced it, issues `prctl` and restrict-self again and returns nil;
and `AddPathRule` after a failed `AddPathRule` issues its calls as well. -/
theorem second_call_issues_syscalls :
    (RestrictSelf allOk w1 3).1 = none ∧
    (RestrictSelf allOk (RestrictSelf allOk w1 3).2 3).1 = none ∧
    newCalls (RestrictSelf allOk w1 3).2 (RestrictSelf allOk (RestrictSelf allOk w1 3).2 3).2 =
      [(prctlCall, 0), (restrictSelfCall 3, 0)] ∧
    (AddPathRule openFails w1 3 "/nonexistent" AccessReadFile).1 ≠ none ∧
    newCalls (AddPathRule openFails w1 3 "/nonexistent" AccessReadFile).2
      (AddPathRule openFails (AddPathRule openFails w1 3 "/nonexistent" AccessReadFile).2 3
        "/nonexistent" AccessReadFile).2 = [(openCall "/nonexistent", 2)] := by
  decide

/-- C5, amended: the operations keep no session state.  In every world,
whatever was done on the ruleset before, `RestrictSelf` issues `prctl` and, when
that succeeds, restrict-self, and returns nil exactly when both succeed;
`AddPathRule` issues nothing and fails on a path with a NUL byte, and otherwise
issues its open and, when that succeeds, add-rule and the close, and returns nil
exactly when open and add-rule succeed.  What a call issues and returns is
decided by the answers of the kernel to the calls of this invocation alone. -/
theorem operations_keep_no_session_state (K : Kernel) (w : World) (rulesetFd : Int) :
    (RestrictSelf K w rulesetFd).2.trace =
      w.trace ++
        (if K.errno w prctlCall ≠ 0 then [(prctlCall, K.errno w prctlCall)]
         else [(prctlCall, 0), (restrictSelfCall rulesetFd, restrictSelfErrno K w rulesetFd)]) ∧
    ((RestrictSelf K w rulesetFd).1 = none ↔
      K.errno w prctlCall = 0 ∧ restrictSelfErrno K w rulesetFd = 0) ∧
    (∀ path accessMask,
      (AddPathRule K w rulesetFd path accessMask).2.trace =
        w.trace ++
          (if hasNul path = true then []
           else if K.errno w (openCall path) ≠ 0 then
             [(openCall path, K.errno w (openCall path))]
           else
             [(openCall path, 0),
              (addRuleCall rulesetFd accessMask (lowestFree w.openFds),
                addRuleErrno K w rulesetFd path accessMask),
              (.close (lowestFree w.openFds), closeErrno K w rulesetFd path accessMask)]) ∧
      ((AddPathRule K w rulesetFd path accessMask).1 = none ↔
        hasNul path = false ∧ K.errno w (openCall path) = 0 ∧
          addRuleErrno K w rulesetFd path accessMask = 0)) := by
  refine ⟨?_, ?_, ?_⟩
  · by_cases hp : K.errno w prctlCall = 0
    · rw [RestrictSelf_prctl_ok K w rulesetFd hp]
      simp [hp, restrictSelfErrno]
    · rw [RestrictSelf_prctl_failed K w rulesetFd hp]
      simp [hp, World.logged]
  · by_cases hp : K.errno w prctlCall = 0
    · rw [RestrictSelf_prctl_ok K w rulesetFd hp]
      by_cases h2 : K.errno (w.logged prctlCall 0) (restrictSelfCall rulesetFd) = 0
      · simp [hp, h2, restrictSelfErrno]
      · simp [hp, h2, restrictSelfErrno]
    · rw [RestrictSelf_prctl_failed K w rulesetFd hp]
      simp [hp]
  · intro path accessMask
    cases hnul : hasNul path with
    | true =>
      rw [AddPathRule_nul K w rulesetFd path accessMask hnul]
      simp
    | false =>
      by_cases h : K.errno w (openCall path) = 0
      · rw [AddPathRule_open_ok K w rulesetFd path accessMask hnul h]
        by_cases h2 : addRuleErrno K w rulesetFd path accessMask = 0
        · simp [h, h2]
        · simp [h, h2]
      · rw [AddPathRule_open_failed K w rulesetFd path accessMask hnul h]
        simp [h, World.logged]

/-- C7: the thirteen access-right constants, in the order of the const block,
are the powers of two `2^0 .. 2^12`; any two of them at different positions
have bitwise AND 0, and the bitwise OR of all of them is `0x1FFF`. -/
theorem accessRights_single_bits :
    accessRights = (List.range 13).map (fun i => 2 ^ i) ∧
    accessRights.Pairwise (fun a b => a &&& b = 0) ∧
    accessRights.Nodup ∧
    accessRights.foldl (fun acc r => acc ||| r) 0 = 0x1FFF ∧
    (∀ r ∈ accessRights, r < 2 ^ 64) := by
  decide

/-- The eight bytes of a 64-bit value give the value back, in either order. -/
theorem fieldValue_fieldBytes_8 (o : ByteOrder) (x : Nat) (h : x < 2 ^ 64) :
    fieldValue o (fieldBytes o 8 x) = x := by
  cases o <;> simp [fieldValue, fieldBytes, bytesLE, ofBytesLE] <;> omega

/-- The four bytes of a 32-bit value give the value back, in either order. -/
theorem fieldValue_fieldBytes_4 (o : ByteOrder) (x : Nat) (h : x < 2 ^ 32) :
    fieldValue o (fieldBytes o 4 x) = x := by
  cases o <;> simp [fieldValue, fieldBytes, bytesLE, ofBytesLE] <;> omega

/-- A field of `n` bytes takes `n` bytes. -/
theorem length_fieldBytes (o : ByteOrder) (n x : Nat) : (fieldBytes o n x).length = n := by
  have hle : ∀ n x, (bytesLE n x).length = n := by
    intro n
    induction n with
    | zero => intro x; rfl
    | succ n ih => intro x; simp [bytesLE, ih]
  cases o <;> simp [fieldBytes, hle]

/-- Every cell of a field is a byte. -/
theorem fieldBytes_lt (o : ByteOrder) (n x b : Nat) (hb : b ∈ fieldBytes o n x) : b < 256 := by
  have hle : ∀ n x, ∀ b ∈ bytesLE n x, b < 256 := by
    intro n
    induction n with
    | zero => intro x b hb; simp [bytesLE] at hb
    | succ n ih =>
      intro x b hb
      simp only [bytesLE, List.mem_cons] at hb
      rcases hb with rfl | hb
      · exact Nat.mod_lt _ (by decide)
      · exact ih _ b hb
  cases o with
  | little => exact hle n x b hb
  | big => exact hle n x b (List.mem_reverse.mp hb)

/-- C6: the record `AddPathRule` builds for a 64-bit `allowedAccess` and a
descriptor `0 <= fd < 2^32` has a memory image of 16 bytes, in either byte
order, which decodes back to the record, with `AllowedAccess = allowedAccess`
and `ParentFd = fd`, whose last four bytes, the padding, are zero, and whose
cells are all bytes. -/
theorem pathBeneathAttr_round_trip (o : ByteOrder) (allowedAccess : Nat) (fd : Int)
    (hmask : allowedAccess < 2 ^ 64) (hfd0 : 0 ≤ fd) (hfd : fd < 2 ^ 32) :
    ((mkPathBeneathAttr allowedAccess fd).toBytes o).length = 16 ∧
    decodePathBeneathAttr o ((mkPathBeneathAttr allowedAccess fd).toBytes o) =
      mkPathBeneathAttr allowedAccess fd ∧
    (decodePathBeneathAttr o ((mkPathBeneathAttr allowedAccess fd).toBytes o)).AllowedAccess =
      allowedAccess ∧
    ((decodePathBeneathAttr o ((mkPathBeneathAttr allowedAccess fd).toBytes o)).ParentFd : Int) =
      fd ∧
    ((mkPathBeneathAttr allowedAccess fd).toBytes o).drop 12 = [0, 0, 0, 0] ∧
    (decodePathBeneathAttr o ((mkPathBeneathAttr allowedAccess fd).toBytes o)).pad =
      [0, 0, 0, 0] ∧
    (∀ b ∈ (mkPathBeneathAttr allowedAccess fd).toBytes o, b < 256) := by
  have hA : allowedAccess % 2 ^ 64 = allowedAccess := Nat.mod_eq_of_lt hmask
  have hP : ((uint32 fd : Nat) : Int) = fd := by
    unfold uint32
    have : fd % 2 ^ 32 = fd := Int.emod_eq_of_lt hfd0 hfd
    rw [this]
    exact Int.toNat_of_nonneg hfd0
  have hPlt : uint32 fd < 2 ^ 32 := by omega
  have l8 := length_fieldBytes o 8 allowedAccess
  have l4 := length_fieldBytes o 4 (uint32 fd)
  have htake8 : ((mkPathBeneathAttr allowedAccess fd).toBytes o).take 8 =
      fieldBytes o 8 allowedAccess := by
    simp only [landlockPathBeneathAttr.toBytes, mkPathBeneathAttr, hA, List.append_assoc]
    rw [List.take_append_of_le_length (by omega), List.take_of_length_le (by omega)]
  have hdrop8 : ((mkPathBeneathAttr allowedAccess fd).toBytes o).drop 8 =
      fieldBytes o 4 (uint32 fd) ++ [0, 0, 0, 0] := by
    simp only [landlockPathBeneathAttr.toBytes, mkPathBeneathAttr, hA, List.append_assoc]
    rw [List.drop_append_of_le_length (by omega), List.drop_of_length_le (by omega)]
    rfl
  have hdrop12 : ((mkPathBeneathAttr allowedAccess fd).toBytes o).drop 12 = [0, 0, 0, 0] := by
    have e : (12 : Nat) = 8 + 4 := rfl
    rw [e, ← List.drop_drop, hdrop8, List.drop_append_of_le_length (by omega),
      List.drop_of_length_le (by omega)]
    rfl
  have htake4 : (((mkPathBeneathAttr allowedAccess fd).toBytes o).drop 8).take 4 =
      fieldBytes o 4 (uint32 fd) := by
    rw [hdrop8, List.take_append_of_le_length (by omega), List.take_of_length_le (by omega)]
  have hdec : decodePathBeneathAttr o ((mkPathBeneathAttr allowedAccess fd).toBytes o) =
      mkPathBeneathAttr allowedAccess fd := by
    simp only [decodePathBeneathAttr, htake8, htake4, hdrop12, fieldValue_fieldBytes_8 o _ hmask,
      fieldValue_fieldBytes_4 o _ hPlt]
    simp only [mkPathBeneathAttr, hA, List.take]
  refine ⟨?_, hdec, ?_, ?_, hdrop12, ?_, ?_⟩
  · simp [landlockPathBeneathAttr.toBytes, mkPathBeneathAttr, l4, length_fieldBytes]
  · rw [hdec]; exact hA
  · rw [hdec]; exact hP
  · rw [hdec]; rfl
  · intro b hb
    simp only [landlockPathBeneathAttr.toBytes, mkPathBeneathAttr, List.mem_append,
      List.mem_cons, List.not_mem_nil, or_false] at hb
    rcases hb with (hb | hb) | hb
    · exact fieldBytes_lt o 8 _ b hb
    · exact fieldBytes_lt o 4 _ b hb
    · rcases hb with rfl | rfl | rfl | rfl <;> decide

/-- Witness of `pathBeneathAttr_round_trip`: all thirteen rights on descriptor 4,
little-endian. -/
theorem pathBeneathAttr_round_trip_witness :
    ((0x1FFF : Nat) < 2 ^ 64 ∧ (0 : Int) ≤ 4 ∧ (4 : Int) < 2 ^ 32) ∧
    (((mkPathBeneathAttr 0x1FFF 4).toBytes .little).length = 16 ∧
    decodePathBeneathAttr .little ((mkPathBeneathAttr 0x1FFF 4).toBytes .little) =
      mkPathBeneathAttr 0x1FFF 4 ∧
    (decodePathBeneathAttr .little ((mkPathBeneathAttr 0x1FFF 4).toBytes .little)).AllowedAccess =
      0x1FFF ∧
    ((decodePathBeneathAttr .little ((mkPathBeneathAttr 0x1FFF 4).toBytes .little)).ParentFd
      : Int) = 4 ∧
    ((mkPathBeneathAttr 0x1FFF 4).toBytes .little).drop 12 = [0, 0, 0, 0] ∧
    (decodePathBeneathAttr .little ((mkPathBeneathAttr 0x1FFF 4).toBytes .little)).pad =
      [0, 0, 0, 0] ∧
    (∀ b ∈ (mkPathBeneathAttr 0x1FFF 4).toBytes .little, b < 256)) :=
  ⟨by decide, pathBeneathAttr_round_trip .little 0x1FFF 4 (by decide) (by decide) (by decide)⟩

end landlock

namespace sandbox

/-- Appending one element per loop iteration builds the mapped list. -/
theorem foldl_append_singleton {α β : Type} (f : α → β) (xs : List α) (init : List β) :
    xs.foldl (fun acc x => acc ++ [f x]) init = init ++ xs.map f := by
  induction xs generalizing init with
  | nil => simp
  | cons x xs ih => simp [ih]

/-- The rule list `Apply` accumulates is the expected one. -/
theorem Apply_eq {Cfg Rule Err : Type} (c : AccessFS) (lib : Landlock Cfg Rule Err)
    (cfg : Config) :
    Apply c lib cfg =
      { restrictCalls := [(expectedCfg lib cfg, expectedRules c lib cfg)],
        err := match lib.Restrict (expectedCfg lib cfg) (expectedRules c lib cfg) with
          | some err => some (if (expectedRules c lib cfg).length = 0
              then "failed to apply default Landlock restrictions"
              else "failed to apply Landlock restrictions", err)
          | none => none } := by
  unfold Apply
  simp only [foldl_append_singleton, List.nil_append]
  have hr : cfg.ReadOnlyExecutablePaths.map (lib.PathAccess (getReadOnlyExecutableRights c)) ++
      cfg.ReadWriteExecutablePaths.map (lib.PathAccess (getReadWriteExecutableRights c)) ++
      cfg.ReadOnlyPaths.map (lib.PathAccess (getReadOnlyRights c)) ++
      cfg.ReadWritePaths.map (lib.PathAccess (getReadWriteRights c)) ++
      cfg.BindTCPPorts.map (fun port => lib.BindTCP (uint16 port)) ++
      cfg.ConnectTCPPorts.map (fun port => lib.ConnectTCP (uint16 port))
      = expectedRules c lib cfg := rfl
  rw [hr]
  have hc : (if cfg.BestEffort = true then lib.BestEffort lib.V5 else lib.V5)
      = expectedCfg lib cfg := rfl
  rw [hc]
  by_cases h : (expectedRules c lib cfg).length = 0
  · have hnil : expectedRules c lib cfg = [] := List.length_eq_zero.mp h
    simp only [hnil, List.length_nil, if_true]
    cases lib.Restrict (expectedCfg lib cfg) [] <;> rfl
  · simp only [h, if_false]
    cases lib.Restrict (expectedCfg lib cfg) (expectedRules c lib cfg) <;> rfl

/-- Two different single bits have no bit in common. -/
theorem two_pow_and_two_pow (i j : Nat) (h : (2 : Nat) ^ i ≠ 2 ^ j) : 2 ^ i &&& 2 ^ j = 0 := by
  have hij : i ≠ j := fun e => h (e ▸ rfl)
  apply Nat.eq_of_testBit_eq
  intro k
  simp only [Nat.testBit_and, Nat.testBit_two_pow, Nat.zero_testBit]
  by_cases h1 : i = k
  · have : j ≠ k := fun e => hij (h1.trans e.symm)
    simp [this]
  · simp [h1]

/-- C8: when the thirteen access-right constants are pairwise distinct single
bits, the four rights sets are nested as their names say.  Read-only is exactly
ReadFile|ReadDir; read-only-executable is read-only with Execute; read-write
holds each of the thirteen rights except Execute, which it does not hold;
read-write-executable is read-write with Execute and holds all thirteen, being
their bitwise OR; the two read-only sets hold no right other than ReadFile,
ReadDir and Execute, so no write, remove or make right; and read-only does
not hold Execute. -/
theorem rights_sets_nested (c : AccessFS) (h : c.SingleBits) :
    getReadOnlyRights c = c.AccessFSReadFile ||| c.AccessFSReadDir ∧
    getReadOnlyExecutableRights c = getReadOnlyRights c ||| c.AccessFSExecute ∧
    (∀ r ∈ c.all, r ≠ c.AccessFSExecute → getReadWriteRights c &&& r = r) ∧
    getReadWriteRights c &&& c.AccessFSExecute = 0 ∧
    getReadWriteExecutableRights c = getReadWriteRights c ||| c.AccessFSExecute ∧
    (∀ r ∈ c.all, getReadWriteExecutableRights c &&& r = r) ∧
    getReadWriteExecutableRights c = c.all.foldl (fun acc r => acc ||| r) 0 ∧
    (∀ r ∈ c.all, r ≠ c.AccessFSExecute → r ≠ c.AccessFSReadFile → r ≠ c.AccessFSReadDir →
      getReadOnlyRights c &&& r = 0 ∧ getReadOnlyExecutableRights c &&& r = 0) ∧
    getReadOnlyRights c &&& c.AccessFSExecute = 0 := by
  obtain ⟨hb, hn⟩ := h
  rcases c with ⟨x, wf, rf, rd, rmd, rmf, mc, md, mr, ms, mf, mb, my⟩
  simp only [AccessFS.all, List.forall_mem_cons, List.not_mem_nil, false_implies, implies_true,
    and_true] at hb
  obtain ⟨⟨k0, -, rfl⟩, ⟨k1, -, rfl⟩, ⟨k2, -, rfl⟩, ⟨k3, -, rfl⟩, ⟨k4, -, rfl⟩, ⟨k5, -, rfl⟩,
    ⟨k6, -, rfl⟩, ⟨k7, -, rfl⟩, ⟨k8, -, rfl⟩, ⟨k9, -, rfl⟩, ⟨k10, -, rfl⟩, ⟨k11, -, rfl⟩,
    ⟨k12, -, rfl⟩⟩ := hb
  simp only [AccessFS.all, List.nodup_cons, List.mem_cons, List.not_mem_nil, or_false, not_or,
    List.nodup_nil, and_true] at hn
  have disj : ∀ i j : Nat, (¬ (2 : Nat) ^ i = 2 ^ j) ↔
      ((2 : Nat) ^ i &&& 2 ^ j = 0 ∧ (2 : Nat) ^ j &&& 2 ^ i = 0) := by
    intro i j
    constructor
    · intro hne
      exact ⟨two_pow_and_two_pow i j hne, two_pow_and_two_pow j i (fun e => hne e.symm)⟩
    · rintro ⟨h1, -⟩ e
      rw [e, Nat.and_self] at h1
      exact absurd h1 (Nat.pos_iff_ne_zero.mp (Nat.two_pow_pos j))
  have distr : ∀ x y z : Nat, (x ||| y) &&& z = (x &&& z) ||| (y &&& z) := by
    intro x y z
    rw [Nat.and_comm, Nat.and_or_distrib_left, Nat.and_comm z x, Nat.and_comm z y]
  simp only [getReadOnlyRights, getReadOnlyExecutableRights, getReadWriteRights,
    getReadWriteExecutableRights, AccessFS.all, List.forall_mem_cons, List.not_mem_nil,
    false_implies, implies_true, and_true, ne_eq, Nat.zero_or, List.foldl_cons, List.foldl_nil]
  simp only [disj] at hn
  repeat' apply And.intro
  all_goals repeat (intro hr; try (exact absurd True.intro hr))
  all_goals repeat' apply And.intro
  all_goals first
    | ac_rfl
    | simp only [distr, hn, Nat.and_self, Nat.zero_or, Nat.or_zero, Nat.zero_and]

/-- The kernel's values of the constants are pairwise distinct single bits. -/
theorem kernelAccessFS_singleBits : kernelAccessFS.SingleBits := by
  refine ⟨?_, by decide⟩
  intro r hr
  simp only [AccessFS.all, kernelAccessFS, List.mem_cons, List.not_mem_nil, or_false] at hr
  rcases hr with rfl | rfl | rfl | rfl | rfl | rfl | rfl | rfl | rfl | rfl | rfl | rfl | rfl
  exacts [⟨0, by decide, rfl⟩, ⟨1, by decide, rfl⟩, ⟨2, by decide, rfl⟩, ⟨3, by decide, rfl⟩,
    ⟨4, by decide, rfl⟩, ⟨5, by decide, rfl⟩, ⟨6, by decide, rfl⟩, ⟨7, by decide, rfl⟩,
    ⟨8, by decide, rfl⟩, ⟨9, by decide, rfl⟩, ⟨10, by decide, rfl⟩, ⟨11, by decide, rfl⟩,
    ⟨12, by decide, rfl⟩]

/-- Witness of `rights_sets_nested`: the constants with their kernel values. -/
theorem rights_sets_nested_witness :
    kernelAccessFS.SingleBits ∧
    (getReadOnlyRights kernelAccessFS =
      kernelAccessFS.AccessFSReadFile ||| kernelAccessFS.AccessFSReadDir ∧
    getReadOnlyExecutableRights kernelAccessFS =
      getReadOnlyRights kernelAccessFS ||| kernelAccessFS.AccessFSExecute ∧
    (∀ r ∈ kernelAccessFS.all, r ≠ kernelAccessFS.AccessFSExecute →
      getReadWriteRights kernelAccessFS &&& r = r) ∧
    getReadWriteRights kernelAccessFS &&& kernelAccessFS.AccessFSExecute = 0 ∧
    getReadWriteExecutableRights kernelAccessFS =
      getReadWriteRights kernelAccessFS ||| kernelAccessFS.AccessFSExecute ∧
    (∀ r ∈ kernelAccessFS.all, getReadWriteExecutableRights kernelAccessFS &&& r = r) ∧
    getReadWriteExecutableRights kernelAccessFS =
      kernelAccessFS.all.foldl (fun acc r => acc ||| r) 0 ∧
    (∀ r ∈ kernelAccessFS.all, r ≠ kernelAccessFS.AccessFSExecute →
      r ≠ kernelAccessFS.AccessFSReadFile → r ≠ kernelAccessFS.AccessFSReadDir →
      getReadOnlyRights kernelAccessFS &&& r = 0 ∧
        getReadOnlyExecutableRights kernelAccessFS &&& r = 0) ∧
    getReadOnlyRights kernelAccessFS &&& kernelAccessFS.AccessFSExecute = 0) :=
  ⟨kernelAccessFS_singleBits, rights_sets_nested kernelAccessFS kernelAccessFS_singleBits⟩

/-- The conversion to `uint16` is reduction modulo `2^16`. -/
theorem uint16_spec (port : Int) : uint16 port < 2 ^ 16 ∧ (uint16 port : Int) = port % 2 ^ 16 := by
  unfold uint16
  have h1 : 0 ≤ port % 2 ^ 16 := Int.emod_nonneg _ (by norm_num)
  have h2 : port % 2 ^ 16 < 2 ^ 16 := Int.emod_lt_of_pos _ (by norm_num)
  omega

/-- C9: `Apply` calls `Restrict` exactly once, on `V5` made best-effort exactly
when `cfg.BestEffort` is set, with the rule list that concatenates, in this
order and each in input order, the read-only-executable, read-write-executable,
read-only and read-write path rules, the bind rules and the connect rules; the
list is empty when all six inputs are; and `Apply` returns nil exactly when that
call of `Restrict` does. -/
theorem Apply_restricts_once {Cfg Rule Err : Type} (c : AccessFS)
    (lib : Landlock Cfg Rule Err) (cfg : Config) :
    (Apply c lib cfg).restrictCalls =
      [(if cfg.BestEffort = true then lib.BestEffort lib.V5 else lib.V5,
        cfg.ReadOnlyExecutablePaths.map (lib.PathAccess (getReadOnlyExecutableRights c)) ++
        cfg.ReadWriteExecutablePaths.map (lib.PathAccess (getReadWriteExecutableRights c)) ++
        cfg.ReadOnlyPaths.map (lib.PathAccess (getReadOnlyRights c)) ++
        cfg.ReadWritePaths.map (lib.PathAccess (getReadWriteRights c)) ++
        cfg.BindTCPPorts.map (fun port => lib.BindTCP (port % 2 ^ 16).toNat) ++
        cfg.ConnectTCPPorts.map (fun port => lib.ConnectTCP (port % 2 ^ 16).toNat))] ∧
    ((Apply c lib cfg).err = none ↔
      lib.Restrict (expectedCfg lib cfg) (expectedRules c lib cfg) = none) ∧
    ((cfg.ReadOnlyExecutablePaths = [] ∧ cfg.ReadWriteExecutablePaths = [] ∧
      cfg.ReadOnlyPaths = [] ∧ cfg.ReadWritePaths = [] ∧ cfg.BindTCPPorts = [] ∧
      cfg.ConnectTCPPorts = []) → expectedRules c lib cfg = []) := by
  rw [Apply_eq]
  refine ⟨rfl, ?_, ?_⟩
  · cases lib.Restrict (expectedCfg lib cfg) (expectedRules c lib cfg) <;> simp
  · rintro ⟨h1, h2, h3, h4, h5, h6⟩
    simp [expectedRules, h1, h2, h3, h4, h5, h6]

/-- C10: `Apply` has no check on port numbers.  Whatever the ports are it
reaches its one call of `Restrict`, whose outcome alone decides the result, and
the rule it passes for a port is the rule for the port reduced modulo `2^16`: a
value below 65536 congruent to the port.  So 65616 gives the rule for port 80,
-1 the rule for port 65535, and ports congruent modulo 65536 give the same
rule. -/
theorem Apply_wraps_ports {Cfg Rule Err : Type} (c : AccessFS)
    (lib : Landlock Cfg Rule Err) (cfg : Config) :
    (∃ pathRules,
      (Apply c lib cfg).restrictCalls =
        [(expectedCfg lib cfg,
          pathRules ++ cfg.BindTCPPorts.map (fun port => lib.BindTCP (uint16 port)) ++
            cfg.ConnectTCPPorts.map (fun port => lib.ConnectTCP (uint16 port)))] ∧
      ((Apply c lib cfg).err = none ↔
        lib.Restrict (expectedCfg lib cfg)
          (pathRules ++ cfg.BindTCPPorts.map (fun port => lib.BindTCP (uint16 port)) ++
            cfg.ConnectTCPPorts.map (fun port => lib.ConnectTCP (uint16 port)))
          = none)) ∧
    (∀ port : Int, uint16 port < 2 ^ 16 ∧ (uint16 port : Int) = port % 2 ^ 16) ∧
    uint16 65616 = 80 ∧ uint16 (-1) = 65535 ∧
    (∀ p q : Int, p % 65536 = q % 65536 →
      lib.BindTCP (uint16 p) = lib.BindTCP (uint16 q) ∧
      lib.ConnectTCP (uint16 p) = lib.ConnectTCP (uint16 q)) ∧
    (Apply kernelAccessFS plainLib
      { ReadOnlyPaths := [], ReadWritePaths := [], ReadOnlyExecutablePaths := [],
        ReadWriteExecutablePaths := [], BindTCPPorts := [65616, -1],
        ConnectTCPPorts := [65979], BestEffort := false }).restrictCalls =
      [((5, false), [.bind 80, .bind 65535, .connect 443])] := by
  refine ⟨⟨cfg.ReadOnlyExecutablePaths.map (lib.PathAccess (getReadOnlyExecutableRights c)) ++
      cfg.ReadWriteExecutablePaths.map (lib.PathAccess (getReadWriteExecutableRights c)) ++
      cfg.ReadOnlyPaths.map (lib.PathAccess (getReadOnlyRights c)) ++
      cfg.ReadWritePaths.map (lib.PathAccess (getReadWriteRights c)), ?_, ?_⟩,
    uint16_spec, by decide, by decide, ?_, by decide⟩
  · rw [Apply_eq]
    rfl
  · rw [Apply_eq]
    have hr : cfg.ReadOnlyExecutablePaths.map (lib.PathAccess (getReadOnlyExecutableRights c)) ++
        cfg.ReadWriteExecutablePaths.map (lib.PathAccess (getReadWriteExecutableRights c)) ++
        cfg.ReadOnlyPaths.map (lib.PathAccess (getReadOnlyRights c)) ++
        cfg.ReadWritePaths.map (lib.PathAccess (getReadWriteRights c)) ++
        cfg.BindTCPPorts.map (fun port => lib.BindTCP (uint16 port)) ++
        cfg.ConnectTCPPorts.map (fun port => lib.ConnectTCP (uint16 port))
        = expectedRules c lib cfg := rfl
    rw [hr]
    cases lib.Restrict (expectedCfg lib cfg) (expectedRules c lib cfg) <;> simp
  · intro p q hpq
    have : uint16 p = uint16 q := by
      unfold uint16
      have e : (2 : Int) ^ 16 = 65536 := by norm_num
      rw [e, hpq]
    rw [this]
    exact ⟨rfl, rfl⟩

end sandbox
